import Mathlib

/-!
Verification of the subtitle extraction core of `gmmmkvsubsextract`.

The Go sources are shallowly embedded: strings are Lean `String`s
(the programs only manipulate ASCII in the places modelled here),
machine integers are `Nat`/`Int`, the filesystem is a partial map
from paths to file sizes or contents, and external tool invocations
are abstracted by their observable result (an optional error).
-/

/-! ## Go string primitives -/

/-- Go `strings.ToLower`, character by character (ASCII is all the
code under study ever lowers). -/
def goToLower (s : String) : String := ⟨s.data.map Char.toLower⟩

/-- Go `strings.TrimSpace`: strip leading and trailing whitespace. -/
def goTrimSpace (s : String) : String :=
  ⟨((s.data.dropWhile Char.isWhitespace).reverse.dropWhile Char.isWhitespace).reverse⟩

/-- Does `sub` occur at the head of `l`? (helper for Go `strings.Contains`). -/
def startsWithList : List Char → List Char → Bool
  | [], _ => true
  | _ :: _, [] => false
  | p :: ps, c :: cs => p == c && startsWithList ps cs

/-- Does `sub` occur anywhere in `l`? (Go `strings.Contains` on rune lists). -/
def hasSubList : List Char → List Char → Bool
  | l@(_ :: t), sub => startsWithList sub l || hasSubList t sub
  | [], sub => sub.isEmpty

/-- Go `strings.Contains`. -/
def goContains (s sub : String) : Bool := hasSubList s.data sub.data

/-- Go `strings.ReplaceAll(s, "/", "_")` as used for codec sanitizing. -/
def replaceSlashes (s : String) : String :=
  ⟨s.data.map (fun c => if c == '/' then '_' else c)⟩

/-- Does `l` end with `suf`? (helper for Go `strings.TrimSuffix`). -/
def endsWithList (l suf : List Char) : Bool :=
  startsWithList suf.reverse l.reverse

/-- Go `strings.TrimSuffix`. -/
def trimSuffixStr (s suf : String) : String :=
  if endsWithList s.data suf.data then ⟨s.data.take (s.data.length - suf.data.length)⟩
  else s

/-! ## Decimal digits: Go `strconv.Itoa` (for non-negative values) and
`fmt.Sprintf("%03s", ·)` zero padding. -/

/-- The ASCII digit character for `n < 10` (as produced by `strconv`'s
digit loop; the catch-all branch is never reached on digit values). -/
def digitChar : Nat → Char
  | 0 => '0' | 1 => '1' | 2 => '2' | 3 => '3' | 4 => '4'
  | 5 => '5' | 6 => '6' | 7 => '7' | 8 => '8' | 9 => '9'
  | _ => '0'

/-- Numeric value of an ASCII digit character (`c - '0'`). -/
def digitVal : Char → Nat
  | '0' => 0 | '1' => 1 | '2' => 2 | '3' => 3 | '4' => 4
  | '5' => 5 | '6' => 6 | '7' => 7 | '8' => 8 | '9' => 9
  | _ => 0

/-- Decimal digit accumulation with explicit fuel (structural recursion,
so that concrete values reduce inside the kernel); never exhausts the
fuel when called with `fuel > n`. -/
def natDigitsAux : Nat → Nat → List Char
  | 0, _ => []
  | fuel + 1, n =>
      if n < 10 then [digitChar n]
      else natDigitsAux fuel (n / 10) ++ [digitChar (n % 10)]

/-- Decimal digit list of a natural number, most significant first. -/
def natDigits (n : Nat) : List Char := natDigitsAux (n + 1) n

/-- Go `strconv.Itoa` restricted to non-negative values (track ids and
track numbers are non-negative). -/
def itoa (n : Nat) : String := ⟨natDigits n⟩

/-- Go `fmt.Sprintf("%03s", s)`: left-pad with `'0'` to width 3
(the `0` flag makes `fmt` pad strings with zeros). -/
def pad3 (s : String) : String :=
  ⟨List.replicate (3 - s.data.length) '0' ++ s.data⟩

/-- Value of a digit string read left to right. -/
def digitsVal (l : List Char) : Nat :=
  l.foldl (fun a c => 10 * a + digitVal c) 0

/-! ## Path helpers (Go `path` package, simplified model)

`path.Dir` / `path.Base` / `path.Join` are modelled for already-clean
slash-separated paths (the `Clean` normalization step is identity on
the paths the program builds). -/

/-- Go `path.Base` (for clean paths): everything after the last `'/'`. -/
def pathBase (p : String) : String :=
  ⟨(p.data.reverse.takeWhile (fun c => c ≠ '/')).reverse⟩

/-- Go `path.Dir` (for clean paths): everything before the last `'/'`,
or `"."` when there is no slash. -/
def pathDir (p : String) : String :=
  let rev := p.data.reverse
  let afterLen := (rev.takeWhile (fun c => c ≠ '/')).length
  let rest := rev.drop afterLen
  if rest.isEmpty then "." else ⟨(rest.drop 1).reverse⟩

/-- Scan a reversed path for the extension: collect characters up to and
including the first `'.'`, giving up at a `'/'` or at the start
(Go `path.Ext` scans backwards with exactly this stopping rule). -/
def revExtAux : List Char → Option (List Char)
  | [] => none
  | c :: rest =>
      if c = '.' then some [c]
      else if c = '/' then none
      else match revExtAux rest with
           | none => none
           | some l => some (c :: l)

/-- Go `path.Ext`: the suffix starting at the final dot of the final
path element, or `""` when there is none. -/
def pathExt (p : String) : String :=
  match revExtAux p.data.reverse with
  | none => ""
  | some l => ⟨l.reverse⟩

/-- Go `path.Join` of a directory and a file name (no re-cleaning). -/
def pathJoin (d f : String) : String :=
  if d = "" then f else d ++ "/" ++ f

/-! ## Data model of the CLI (`src/main.go`) -/

/-- `MKVTrackProperties` (the fields the claims touch; `Number` is an
MKV track number, non-negative). -/
structure MKVTrackProperties where
  codecId : String
  trackName : String
  language : String
  number : Nat
  forced : Bool
  deriving Repr, DecidableEq

/-- `MKVTrack` as decoded from the metadata tool's JSON. -/
structure MKVTrack where
  codec : String
  id : Nat
  type : String
  properties : MKVTrackProperties
  deriving Repr, DecidableEq

/-- `MKVContainer`. -/
structure MKVContainer where
  type : String
  deriving Repr, DecidableEq

/-- `MKVInfo`. -/
structure MKVInfo where
  tracks : List MKVTrack
  container : MKVContainer
  deriving Repr, DecidableEq

/-- The `subtitleExtensionByCodec` map; Go map lookup yields the zero
value `""` for unmapped codec ids. -/
def subtitleExtensionByCodec (c : String) : String :=
  if c = "S_TEXT/UTF8" then "srt"
  else if c = "S_TEXT/ASS" then "ass"
  else if c = "S_HDMV/PGS" then "sup"
  else ""

/-- `buildSubtitlesFileName` from `src/main.go`, line for line. -/
def buildSubtitlesFileName (inputFileName : String) (track : MKVTrack) : String :=
  let baseDir := pathDir inputFileName
  let fileName := pathBase inputFileName
  let extension := pathExt fileName
  let baseName := trimSuffixStr fileName extension
  let trackNo := pad3 (itoa track.properties.number)
  let out1 := baseName ++ "." ++ track.properties.language ++ "." ++ trackNo
  let out2 := if track.properties.trackName ≠ "" then out1 ++ "." ++ track.properties.trackName else out1
  let out3 := if track.properties.forced then out2 ++ "." ++ ".forced" else out2
  let out4 := out3 ++ "." ++ subtitleExtensionByCodec track.properties.codecId
  pathJoin baseDir out4

/-- The GUI batch output name, `fmt.Sprintf("%s.track%d_%s.%s", ...)`
(`src/fyne-gui/main.go`, pass-through and conversion branches alike). -/
def guiOutFileName (mkvBaseName : String) (num : Nat) (lang ext : String) : String :=
  mkvBaseName ++ ".track" ++ itoa num ++ "_" ++ lang ++ "." ++ ext

/-! ## String append / cancellation machinery -/

/-- A concrete "und"-language unnamed track, CLI shape, number 2. -/
def cliTrackA : MKVTrack :=
  ⟨"SubRip/SRT", 2, "subtitles", ⟨"S_TEXT/UTF8", "", "und", 2, false⟩⟩

/-- A concrete "und"-language unnamed track, CLI shape, number 3. -/
def cliTrackB : MKVTrack :=
  ⟨"SubRip/SRT", 3, "subtitles", ⟨"S_TEXT/UTF8", "", "und", 3, false⟩⟩

/-- A concrete forced English track, CLI shape, number 2. -/
def cliTrackForced : MKVTrack :=
  ⟨"SubRip/SRT", 2, "subtitles", ⟨"S_TEXT/UTF8", "", "eng", 2, true⟩⟩

/-- Modelled after the amended reading of the CLI naming sentence: the
deterministic composition with the forced segment preceded by TWO dots
(the code appends the literal `".forced"` behind a fresh `"."`
separator), and the extension drawn from the codec-id map (which yields
`""` for unmapped codec ids). -/
def cliNameScheme (input : String) (track : MKVTrack) : String :=
  pathJoin (pathDir input)
    (trimSuffixStr (pathBase input) (pathExt (pathBase input))
      ++ "." ++ track.properties.language
      ++ "." ++ pad3 (itoa track.properties.number)
      ++ (if track.properties.trackName ≠ "" then "." ++ track.properties.trackName else "")
      ++ (if track.properties.forced then "..forced" else "")
      ++ "." ++ subtitleExtensionByCodec track.properties.codecId)

/-! ## CLI file-name guard (`isMKVFile`, `src/main.go`) -/

/-- `isMKVFile` compares the lower-cased last four characters with
`".mkv"`; the Go slice `inputFileName[len(inputFileName)-4:]` panics
when the name is shorter than four characters, modelled as `none`. -/
def isMKVFile (inputFileName : String) : Option Bool :=
  if inputFileName.length < 4 then none
  else some (goToLower ⟨inputFileName.data.drop (inputFileName.length - 4)⟩ == ".mkv")

/-! ## CLI pipeline (`main`, `src/main.go`): container gate, track loop,
exit code -/

/-- The CLI track loop: walk the parsed tracks in order, run extraction
on every `"subtitles"` track, and `return` at the first extraction
error. `extractRes` abstracts one `mkvextract` run keyed by track id
(`none` = success). The result lists the ids of tracks whose extraction
was attempted, paired with the handler's returned error. -/
def cliTrackLoop (extractRes : Nat → Option String) :
    List MKVTrack → List Nat × Option String
  | [] => ([], none)
  | tr :: rest =>
      if tr.type = "subtitles" then
        match extractRes tr.id with
        | some e => ([tr.id], some e)
        | none =>
            let r := cliTrackLoop extractRes rest
            (tr.id :: r.1, r.2)
      else cliTrackLoop extractRes rest

/-- The CLI `Extract` handler after JSON decoding: the trimmed,
lower-cased container type must be `"matroska"`, otherwise the handler
fails before any track is processed. -/
def cliHandle (info : MKVInfo) (extractRes : Nat → Option String) :
    List Nat × Option String :=
  if goToLower (goTrimSpace info.container.type) = "matroska" then
    cliTrackLoop extractRes info.tracks
  else ([], some "file is not a Matroska container")

/-- The process exit code of `main`: a handler error exits with
`ErrCodeFailure` (1), otherwise `ErrCodeSuccess` (0). -/
def cliExitCode (handlerResult : Option String) : Nat :=
  match handlerResult with
  | some _ => 1
  | none => 0

/-! ## GUI batch loop skeleton (`startExtractBtn` handler,
`src/fyne-gui/main.go`) -/

/-- One row of the GUI track table (the fields the extraction loop
reads); `ocrChecked` is true when the convert checkbox exists and is
ticked. -/
structure TrackItem where
  num : Nat
  lang : String
  codec : String
  name : String
  ocrChecked : Bool
  deriving Repr, DecidableEq

/-- The terminal state written back to a track row: `"Error"` when the
track's final `err` is set, `"Done"` otherwise. -/
def guiTerminalState (err : Option String) : String :=
  match err with
  | some _ => "Error"
  | none => "Done"

/-- The possible fates of one iteration of the GUI batch loop body:
either the body runs through to the shared terminal update with a final
`err` value, or it hits one of the two early `return` statements inside
the PGS conversion branch (conversion script absent, temporary-file
creation failure), which exits the whole batch goroutine. -/
inductive TrackOutcome
  | finished (err : Option String)
  | aborted
  deriving Repr, DecidableEq

/-- The GUI batch loop over the selected tracks, in user-selected order:
a track whose body reaches the terminal update is recorded with its own
state (`"Error"` on failure, `"Done"` otherwise) and the loop continues
with the next track; a track whose body takes one of the early `return`
paths ends the whole batch — it receives no terminal state and the
remaining tracks are never processed. `res` abstracts the per-track
extraction/conversion outcome. -/
def guiBatchStates (res : TrackItem → TrackOutcome) :
    List TrackItem → List (Nat × String)
  | [] => []
  | t :: rest =>
      match res t with
      | TrackOutcome.finished err =>
          (t.num, guiTerminalState err) :: guiBatchStates res rest
      | TrackOutcome.aborted => []

/-- Two concrete subtitle tracks for the CLI batch counterexample. -/
def cliBatchInfo : MKVInfo :=
  ⟨[⟨"SubRip/SRT", 1, "subtitles", ⟨"S_TEXT/UTF8", "", "eng", 2, false⟩⟩,
    ⟨"SubRip/SRT", 2, "subtitles", ⟨"S_TEXT/UTF8", "", "dut", 3, false⟩⟩],
   ⟨"matroska"⟩⟩

/-- Extraction outcome where the first track's extraction fails. -/
def failFirstTrack : Nat → Option String :=
  fun i => if i = 1 then some "exit status 2" else none

/-- The `tracksDone` counter and the `progress.SetValue` calls of the GUI
batch loop: the progress bar is set to `tracksDone + 1` only in the
success branch of the terminal update; `tracksDone` advances for every
track whose body completes; an early `return` ends the loop at once,
with no update and no advance for the aborting track or any later one.
Returns the list of values passed to `progress.SetValue`, in order. -/
def progressEvents : List TrackOutcome → Nat → List Nat
  | [], _ => []
  | TrackOutcome.finished none :: rest, tracksDone =>
      (tracksDone + 1) :: progressEvents rest (tracksDone + 1)
  | TrackOutcome.finished (some _) :: rest, tracksDone =>
      progressEvents rest (tracksDone + 1)
  | TrackOutcome.aborted :: _, _ => []

/-- Concrete GUI rows for the batch-loop witnesses. -/
def guiRowA : TrackItem := ⟨1, "eng", "SubRip/SRT", "", false⟩

/-- A second concrete GUI row. -/
def guiRowB : TrackItem := ⟨2, "dut", "SubRip/SRT", "", false⟩

/-- A PGS row whose conversion will hit an early `return`. -/
def guiRowC : TrackItem := ⟨3, "ger", "hdmv_pgs_subtitle", "", true⟩

/-- Outcomes where track 1 fails (but finishes), track 3 takes an early
`return` (e.g. the PGS conversion script is absent), and every other
track succeeds. -/
def guiOutcome : TrackItem → TrackOutcome :=
  fun t =>
    if t.num = 1 then TrackOutcome.finished (some "exit status 2")
    else if t.num = 3 then TrackOutcome.aborted
    else TrackOutcome.finished none

/-! ## Extraction artifact checks (claim C1) -/

/-- A filesystem fragment mapping paths to file sizes (`none` = absent). -/
def SizeFS : Type := String → Option Nat

/-- The artifact check run right after `mkvextract` on the
conversion-prefixed paths (PGS; the ASS/SSA and VobSub branches repeat
it verbatim): `os.Stat` failure or a zero size replaces the tool's
verdict `err`, a non-empty file leaves it unchanged. -/
def extractArtifactErr (toolErr : Option String) (fs : SizeFS) (p : String) :
    Option String :=
  match fs p with
  | none => some "cannot find extracted file"
  | some sz => if sz = 0 then some "extracted file is empty (0 bytes)" else toolErr

/-- The plain pass-through extraction branch: the final `err` is the
tool's `CombinedOutput` error unchanged — the branch never stats the
produced artifact (the filesystem and output path are ignored). -/
def passThroughErr (toolErr : Option String) (_fs : SizeFS) (_outPath : String) :
    Option String :=
  toolErr

/-- The filesystem with no files at all. -/
def emptySizeFS : SizeFS := fun _ => none

/-- A filesystem holding exactly one non-empty artifact. -/
def oneFileFS : SizeFS :=
  fun p => if p = "/out/movie.track2_eng.sup" then some 5210 else none

/-! ## Track classification (claim C4) -/

/-- The three extraction strategies. -/
inductive Strategy
  | passThrough
  | ocrImageToText
  | markupToText
  deriving Repr, DecidableEq

/-- `loadTracksBtn` handler: is the convert-to-SRT checkbox offered for
this codec? Exact comparisons for the PGS and VobSub identifiers,
lower-cased substring tests for the ASS/SSA family. -/
def offersOcr (codec : String) : Bool :=
  codec == "hdmv_pgs_subtitle" || codec == "HDMV PGS" ||
  goContains (goToLower codec) "ass" || goContains (goToLower codec) "ssa" ||
  goContains (goToLower codec) "substation" || goContains (goToLower codec) "sub station" ||
  codec == "vobsub" || codec == "VobSub"

/-- The pass-through extension choice of the extraction handler's
else-branch: SubRip/SRT substring tests, exact PGS / ASS / VobSub
identifier tests, otherwise the lower-cased codec with slashes
replaced by underscores. -/
def passThroughExt (codec : String) : String :=
  if goContains codec "SubRip" || goContains codec "subrip" ||
      goContains codec "SRT" || goContains codec "srt" then "srt"
  else if codec == "hdmv_pgs_subtitle" || codec == "HDMV PGS" then "sup"
  else if codec == "ass" || codec == "ssa" || codec == "ASS" || codec == "SSA" then "ass"
  else if codec == "vobsub" || codec == "VobSub" then "idx"
  else goToLower (replaceSlashes codec)

/-- The strategy and final-output extension selected by the extraction
handler for one track: the three conversion branches guard on
`ConvertOCR != nil && ConvertOCR.Checked` plus their codec tests, in
source order; everything else is plain pass-through extraction. -/
def classify (codec : String) (ocrChecked : Bool) : Strategy × String :=
  let ocr := offersOcr codec && ocrChecked
  if ocr && (codec == "hdmv_pgs_subtitle" || codec == "HDMV PGS") then
    (Strategy.ocrImageToText, "srt")
  else if ocr && (goContains (goToLower codec) "ass" || goContains (goToLower codec) "ssa" ||
      goContains (goToLower codec) "substation" || goContains (goToLower codec) "sub station") then
    (Strategy.markupToText, "srt")
  else if ocr && (codec == "vobsub" || codec == "VobSub") then
    (Strategy.ocrImageToText, "srt")
  else (Strategy.passThrough, passThroughExt codec)

/-! ## Temp-file promotion in the OCR conversion driver (claim C7) -/

/-- A filesystem fragment mapping paths to file contents. -/
def ContentFS : Type := String → Option String

/-- Write a file (creating or overwriting). -/
def fsWrite (fs : ContentFS) (p content : String) : ContentFS :=
  fun q => if q = p then some content else fs q

/-- Remove a file. -/
def fsRemove (fs : ContentFS) (p : String) : ContentFS :=
  fun q => if q = p then none else fs q

/-- The promotion block run after `cmd.Wait()` in the PGS conversion
driver: the copy from the private temporary file to the final output
path is attempted regardless of the converter's exit error; on a
successful copy the temporary file is removed and `err` keeps the
converter's verdict; a missing temporary file sets a copy error, which
replaces `err` only when the converter itself exited cleanly
(`if err == nil && copyErr != nil`). Directory creation, read and
write are modelled as succeeding. -/
def promoteTempFile (waitErr : Option String) (fs : ContentFS)
    (tmp finalPath : String) : ContentFS × Option String :=
  match fs tmp with
  | some content => (fsRemove (fsWrite fs finalPath content) tmp, waitErr)
  | none =>
      (fs,
        match waitErr with
        | none => some "temporary file not found"
        | some e => some e)

/-- The final artifact stat after promotion (`os.Stat(absOutputPath)`):
when the converted file is absent, `err` is overwritten with an
output-not-produced error. -/
def pgsConvertFinalize (waitErr : Option String) (fs : ContentFS)
    (tmp finalPath : String) : ContentFS × Option String :=
  let r := promoteTempFile waitErr fs tmp finalPath
  match r.1 finalPath with
  | some _ => r
  | none => (r.1, some "SRT file was not created")

/-- A filesystem holding only the converter's temporary output. -/
def tmpOnlyFS : ContentFS :=
  fun p => if p = "/out/.tmp_convert_123.srt" then some "1\n00:00:01,000 --> 00:00:02,000\npartial\n" else none

/-! ## SRT timing adjustment (`adjustSRTTiming`, claim C10) -/

/-- The eight captured fields of the SRT timing pattern
`(\d2):(\d2):(\d2),(\d3) --> (\d2):(\d2):(\d2),(\d3)`. -/
structure SRTStamp where
  sh : Nat
  sm : Nat
  ss : Nat
  sms : Nat
  eh : Nat
  em : Nat
  es : Nat
  ems : Nat
  deriving Repr, DecidableEq

/-- The adjusted timestamp components (Go `int` arithmetic → `Int`). -/
structure AdjStamp where
  sh : Int
  sm : Int
  ss : Int
  sms : Int
  eh : Int
  em : Int
  es : Int
  ems : Int
  deriving Repr, DecidableEq

/-- The replacement callback of `adjustSRTTiming`: both timestamps go to
total milliseconds, receive the (already `int`-converted) offset, are
clamped at zero, and are decomposed again exactly as the code does.
Division on the clamped non-negative values coincides with Go's
truncating `int` division. -/
def adjustStamp (t : SRTStamp) (offsetMs : Int) : AdjStamp :=
  let startMs : Int := (t.sh : Int) * 3600000 + t.sm * 60000 + t.ss * 1000 + t.sms + offsetMs
  let endMs : Int := (t.eh : Int) * 3600000 + t.em * 60000 + t.es * 1000 + t.ems + offsetMs
  let startMs := if startMs < 0 then 0 else startMs
  let endMs := if endMs < 0 then 0 else endMs
  { sh := startMs / 3600000,
    sm := startMs % 3600000 / 60000,
    ss := startMs % 3600000 % 60000 / 1000,
    sms := startMs % 3600000 % 60000 % 1000,
    eh := endMs / 3600000,
    em := endMs % 3600000 / 60000,
    es := endMs % 3600000 % 60000 / 1000,
    ems := endMs % 3600000 % 60000 % 1000 }

/-- Does the SRT timing pattern match at the head of the character list?
If so, parse the eight captures (the pattern is a fixed 29-character
window). -/
def matchStampWindow : List Char → Option SRTStamp
  | a1 :: a2 :: s1 :: b1 :: b2 :: s2 :: c1 :: c2 :: s3 :: d1 :: d2 :: d3 ::
      w1 :: w2 :: w3 :: w4 :: w5 ::
      e1 :: e2 :: s4 :: f1 :: f2 :: s5 :: g1 :: g2 :: s6 :: h1 :: h2 :: h3 :: _ =>
      if a1.isDigit && a2.isDigit && s1 == ':' && b1.isDigit && b2.isDigit && s2 == ':' &&
          c1.isDigit && c2.isDigit && s3 == ',' && d1.isDigit && d2.isDigit && d3.isDigit &&
          w1 == ' ' && w2 == '-' && w3 == '-' && w4 == '>' && w5 == ' ' &&
          e1.isDigit && e2.isDigit && s4 == ':' && f1.isDigit && f2.isDigit && s5 == ':' &&
          g1.isDigit && g2.isDigit && s6 == ',' && h1.isDigit && h2.isDigit && h3.isDigit then
        some { sh := 10 * digitVal a1 + digitVal a2, sm := 10 * digitVal b1 + digitVal b2,
               ss := 10 * digitVal c1 + digitVal c2,
               sms := 100 * digitVal d1 + 10 * digitVal d2 + digitVal d3,
               eh := 10 * digitVal e1 + digitVal e2, em := 10 * digitVal f1 + digitVal f2,
               es := 10 * digitVal g1 + digitVal g2,
               ems := 100 * digitVal h1 + 10 * digitVal h2 + digitVal h3 }
      else none
  | _ => none

/-- Left-pad the decimal digits of a (non-negative) component to a fixed
width with zeros (`%02d` / `%03d` on the clamped values). -/
def padIntTo (w : Nat) (v : Int) : List Char :=
  List.replicate (w - (natDigits v.toNat).length) '0' ++ natDigits v.toNat

/-- Render the adjusted pair back into the SRT timing syntax
(`fmt.Sprintf("%02d:%02d:%02d,%03d --> %02d:%02d:%02d,%03d", ...)`). -/
def renderStamp (a : AdjStamp) : List Char :=
  padIntTo 2 a.sh ++ ':' :: padIntTo 2 a.sm ++ ':' :: padIntTo 2 a.ss ++ ',' :: padIntTo 3 a.sms
    ++ ' ' :: '-' :: '-' :: '>' :: ' ' ::
      padIntTo 2 a.eh ++ ':' :: padIntTo 2 a.em ++ ':' :: padIntTo 2 a.es ++ ',' :: padIntTo 3 a.ems

/-- `regexp.ReplaceAllStringFunc` specialized to the fixed-width timing
pattern: scan left to right, replace each non-overlapping match through
the adjustment callback, copy all other characters unchanged. -/
def scanAdjust (offsetMs : Int) : List Char → List Char
  | [] => []
  | c :: rest =>
      match matchStampWindow (c :: rest) with
      | some t => renderStamp (adjustStamp t offsetMs) ++ scanAdjust offsetMs (rest.drop 28)
      | none => c :: scanAdjust offsetMs rest
  termination_by l => l.length
  decreasing_by
    · simp only [List.length_cons, List.length_drop]
      omega
    · simp only [List.length_cons]
      omega

/-- `re.MatchString` for the timing pattern: does it match anywhere? -/
def lineHasStamp : List Char → Bool
  | [] => false
  | c :: rest => (matchStampWindow (c :: rest)).isSome || lineHasStamp rest

/-- One line of `adjustSRTTiming`: lines containing the timing pattern
get their matches replaced; all other lines pass through unchanged. -/
def adjustLine (offsetMs : Int) (line : String) : String :=
  if lineHasStamp line.data then ⟨scanAdjust offsetMs line.data⟩ else line

/-- `adjustSRTTiming`: split the content on newlines, adjust each line,
rejoin. The `offsetSeconds float64` parameter enters the arithmetic
only through the single conversion `int(offsetSeconds * 1000)`,
modelled as the integer `offsetMs`. -/
def adjustSRTTiming (content : String) (offsetMs : Int) : String :=
  String.intercalate "\n" ((content.splitOn "\n").map (adjustLine offsetMs))

/-- A concrete stamp `00:00:01,000 --> 00:00:02,000`. -/
def sampleStamp : SRTStamp := ⟨0, 0, 1, 0, 0, 0, 2, 0⟩

/-! ## Theorems -/

theorem digitVal_digitChar {n : Nat} (h : n < 10) :
    digitVal (digitChar n) = n := by
  interval_cases n <;> rfl

theorem digitChar_isDigit (n : Nat) : (digitChar n).isDigit = true := by
  unfold digitChar
  split <;> rfl

theorem digitsVal_append_singleton (l : List Char) (c : Char) :
    digitsVal (l ++ [c]) = 10 * digitsVal l + digitVal c := by
  unfold digitsVal
  rw [List.foldl_append]
  rfl

theorem foldl_digits_zero (k : Nat) :
    List.foldl (fun a c => 10 * a + digitVal c) 0 (List.replicate k '0') = 0 := by
  induction k with
  | zero => rfl
  | succ m ih =>
      rw [List.replicate_succ, List.foldl_cons]
      simpa using ih

theorem digitsVal_replicate_zero_append (k : Nat) (l : List Char) :
    digitsVal (List.replicate k '0' ++ l) = digitsVal l := by
  unfold digitsVal
  rw [List.foldl_append, foldl_digits_zero]

theorem digitsVal_natDigitsAux (fuel : Nat) :
    ∀ n, n < fuel → digitsVal (natDigitsAux fuel n) = n := by
  induction fuel with
  | zero => intro n hn; omega
  | succ f ih =>
      intro n hn
      rw [natDigitsAux]
      by_cases h : n < 10
      · rw [if_pos h]
        show digitsVal ([] ++ [digitChar n]) = n
        rw [digitsVal_append_singleton, digitVal_digitChar h]
        show 10 * 0 + n = n
        omega
      · rw [if_neg h]
        rw [digitsVal_append_singleton]
        have hlt : n / 10 < n := Nat.div_lt_self (by omega) (by omega)
        rw [ih (n / 10) (by omega)]
        rw [digitVal_digitChar (Nat.mod_lt _ (by omega))]
        omega

theorem digitsVal_natDigits (n : Nat) : digitsVal (natDigits n) = n :=
  digitsVal_natDigitsAux (n + 1) n (by omega)

theorem natDigitsAux_all_digits (fuel : Nat) :
    ∀ n, ∀ c ∈ natDigitsAux fuel n, c.isDigit = true := by
  induction fuel with
  | zero => intro n c hc; simp [natDigitsAux] at hc
  | succ f ih =>
      intro n c hc
      rw [natDigitsAux] at hc
      by_cases h : n < 10
      · rw [if_pos h] at hc
        simp only [List.mem_singleton] at hc
        subst hc
        exact digitChar_isDigit n
      · rw [if_neg h] at hc
        rcases List.mem_append.mp hc with h1 | h2
        · exact ih (n / 10) c h1
        · simp only [List.mem_singleton] at h2
          subst h2
          exact digitChar_isDigit _

theorem natDigits_all_digits (n : Nat) :
    ∀ c ∈ natDigits n, c.isDigit = true :=
  natDigitsAux_all_digits (n + 1) n

theorem pad3_itoa_all_digits (n : Nat) :
    ∀ c ∈ (pad3 (itoa n)).data, c.isDigit = true := by
  intro c hc
  unfold pad3 itoa at hc
  simp only at hc
  rcases List.mem_append.mp hc with h1 | h2
  · rw [List.eq_of_mem_replicate h1]
    rfl
  · exact natDigits_all_digits n c h2

theorem pad3_itoa_inj {m n : Nat} (h : pad3 (itoa m) = pad3 (itoa n)) :
    m = n := by
  have hd : (pad3 (itoa m)).data = (pad3 (itoa n)).data := by rw [h]
  unfold pad3 itoa at hd
  simp only at hd
  have hv : digitsVal (List.replicate (3 - (natDigits m).length) '0' ++ natDigits m)
      = digitsVal (List.replicate (3 - (natDigits n).length) '0' ++ natDigits n) := by
    rw [hd]
  rw [digitsVal_replicate_zero_append, digitsVal_replicate_zero_append,
    digitsVal_natDigits, digitsVal_natDigits] at hv
  exact hv

theorem strData_append (s t : String) : (s ++ t).data = s.data ++ t.data := rfl

theorem strExt {s t : String} (h : s.data = t.data) : s = t := by
  cases s
  cases t
  exact congrArg String.mk h

theorem strAppend_assoc (a b c : String) : a ++ b ++ c = a ++ (b ++ c) := by
  apply strExt
  simp [strData_append]

/-- Two lists of digit characters followed by non-digit-headed tails can
be cancelled at the digit boundary. -/
theorem digits_front_cancel (xs : List Char) :
    ∀ (xs' : List Char) (y y' : Char) (yt yt' : List Char),
      (∀ c ∈ xs, c.isDigit = true) → (∀ c ∈ xs', c.isDigit = true) →
      y.isDigit = false → y'.isDigit = false →
      xs ++ y :: yt = xs' ++ y' :: yt' → xs = xs' := by
  induction xs with
  | nil =>
      intro xs' y y' yt yt' _ hx' hy hy' heq
      cases xs' with
      | nil => rfl
      | cons c t =>
          simp only [List.nil_append, List.cons_append, List.cons.injEq] at heq
          have hc : c.isDigit = true := hx' c (by simp)
          rw [← heq.1] at hc
          rw [hy] at hc
          cases hc
  | cons c t ih =>
      intro xs' y y' yt yt' hx hx' hy hy' heq
      cases xs' with
      | nil =>
          simp only [List.nil_append, List.cons_append, List.cons.injEq] at heq
          have hc : c.isDigit = true := hx c (by simp)
          rw [heq.1] at hc
          rw [hy'] at hc
          cases hc
      | cons c' t' =>
          simp only [List.cons_append, List.cons.injEq] at heq
          have := ih t' y y' yt yt' (fun d hd => hx d (by simp [hd]))
            (fun d hd => hx' d (by simp [hd])) hy hy' heq.2
          rw [heq.1, this]

theorem strAppend_cancel_left {s a b : String} (h : s ++ a = s ++ b) : a = b := by
  have hd := congrArg String.data h
  rw [strData_append, strData_append] at hd
  exact strExt (List.append_cancel_left hd)

theorem pathJoin_right_inj {d x y : String} (h : pathJoin d x = pathJoin d y) :
    x = y := by
  unfold pathJoin at h
  split at h
  · exact h
  · rw [strAppend_assoc, strAppend_assoc] at h
    exact strAppend_cancel_left (strAppend_cancel_left h)

theorem itoa_inj {m n : Nat} (h : (itoa m).data = (itoa n).data) : m = n := by
  have hv := congrArg digitsVal h
  have hm : (itoa m).data = natDigits m := rfl
  have hn : (itoa n).data = natDigits n := rfl
  rw [hm, hn, digitsVal_natDigits, digitsVal_natDigits] at hv
  exact hv

theorem itoa_all_digits (n : Nat) : ∀ c ∈ (itoa n).data, c.isDigit = true :=
  natDigits_all_digits n

theorem pad3_itoa_inj_data {m n : Nat}
    (h : (pad3 (itoa m)).data = (pad3 (itoa n)).data) : m = n :=
  pad3_itoa_inj (strExt h)

theorem dataDot : ("." : String).data = ['.'] := rfl

theorem dataForcedLit : (".forced" : String).data = ['.', 'f', 'o', 'r', 'c', 'e', 'd'] := rfl

theorem dataTrackLit : (".track" : String).data = ['.', 't', 'r', 'a', 'c', 'k'] := rfl

theorem dataUnderscoreLit : ("_" : String).data = ['_'] := rfl

/-- Distinct track numbers give distinct CLI output names, for any two
tracks of the same container with equal language and empty names. -/
theorem cliName_num_ne (input : String) (t1 t2 : MKVTrack)
    (hnum : t1.properties.number ≠ t2.properties.number)
    (hlang : t1.properties.language = t2.properties.language)
    (hn1 : t1.properties.trackName = "") (hn2 : t2.properties.trackName = "") :
    buildSubtitlesFileName input t1 ≠ buildSubtitlesFileName input t2 := by
  intro heq
  simp only [buildSubtitlesFileName, hn1, hn2, hlang, ne_eq, eq_self_iff_true,
    not_true_eq_false, if_false] at heq
  have hx := pathJoin_right_inj heq
  have hd := congrArg String.data hx
  by_cases hf1 : t1.properties.forced = true <;> by_cases hf2 : t2.properties.forced = true <;>
    simp only [hf1, hf2, if_true, if_false, Bool.false_eq_true, strData_append, dataDot,
      dataForcedLit, List.append_assoc, List.cons_append, List.singleton_append,
      List.nil_append] at hd <;>
  · have h1 := List.append_cancel_left hd
    simp only [List.cons.injEq, true_and] at h1
    have h2 := List.append_cancel_left h1
    simp only [List.cons.injEq, true_and] at h2
    exact hnum (pad3_itoa_inj_data
      (digits_front_cancel _ _ _ _ _ _ (pad3_itoa_all_digits _) (pad3_itoa_all_digits _)
        (by decide) (by decide) h2))

/-- Distinct track numbers give distinct GUI batch output names. -/
theorem guiName_num_ne (base lang ext : String) (n1 n2 : Nat) (h : n1 ≠ n2) :
    guiOutFileName base n1 lang ext ≠ guiOutFileName base n2 lang ext := by
  intro heq
  have hd := congrArg String.data heq
  simp only [guiOutFileName, strData_append, dataTrackLit, dataUnderscoreLit, dataDot,
    List.append_assoc, List.cons_append, List.singleton_append, List.nil_append] at hd
  have h1 := List.append_cancel_left hd
  simp only [List.cons.injEq, true_and] at h1
  exact h (itoa_inj
    (digits_front_cancel _ _ _ _ _ _ (itoa_all_digits _) (itoa_all_digits _)
      (by decide) (by decide) h1))

theorem dataEmptyLit : ("" : String).data = [] := rfl

theorem dataDotDotForcedLit :
    ("..forced" : String).data = ['.', '.', 'f', 'o', 'r', 'c', 'e', 'd'] := rfl

/-- Claim C5: for any two tracks of one batch with distinct track numbers,
the derived output filenames are distinct, even with identical language
codes and empty track names — on the CLI naming path
(`buildSubtitlesFileName`) and on the GUI batch naming path
(`guiOutFileName`); the track number embedded in every name is the
disambiguating component. -/
theorem claim_C5_collision_freedom :
    (∀ (input : String) (t1 t2 : MKVTrack),
        t1.properties.number ≠ t2.properties.number →
        t1.properties.language = t2.properties.language →
        t1.properties.trackName = "" → t2.properties.trackName = "" →
        buildSubtitlesFileName input t1 ≠ buildSubtitlesFileName input t2) ∧
    (∀ (base lang ext : String) (n1 n2 : Nat), n1 ≠ n2 →
        guiOutFileName base n1 lang ext ≠ guiOutFileName base n2 lang ext) :=
  ⟨cliName_num_ne, guiName_num_ne⟩

/-- Claim C5, witnessed at two concrete unnamed "und" tracks. -/
theorem claim_C5_witness :
    (cliTrackA.properties.number ≠ cliTrackB.properties.number ∧
      cliTrackA.properties.language = cliTrackB.properties.language ∧
      cliTrackA.properties.trackName = "" ∧ cliTrackB.properties.trackName = "") ∧
    buildSubtitlesFileName "/m/movie.mkv" cliTrackA ≠
      buildSubtitlesFileName "/m/movie.mkv" cliTrackB ∧
    guiOutFileName "movie" 2 "und" "srt" ≠ guiOutFileName "movie" 3 "und" "srt" :=
  ⟨⟨by decide, rfl, rfl, rfl⟩,
    claim_C5_collision_freedom.1 "/m/movie.mkv" cliTrackA cliTrackB (by decide) rfl rfl rfl,
    claim_C5_collision_freedom.2 "movie" "und" "srt" 2 3 (by decide)⟩

/-- Claim C6 counterexample: on a forced track the CLI filename contains
`..forced` — the forced segment is separated by two dots, not exactly
one as claimed. -/
theorem claim_C6_counterexample :
    buildSubtitlesFileName "/m/movie.mkv" cliTrackForced
        = "/m/movie.eng.002..forced.srt" ∧
    buildSubtitlesFileName "/m/movie.mkv" cliTrackForced
        ≠ "/m/movie.eng.002.forced.srt" := by
  constructor
  · rfl
  · decide

/-- Claim C6 (amended): the CLI path derives
`<containerBase>.<language>.<3-digit-zero-padded-number>[.<trackName>][..forced].<extension>`
— with the forced segment separated by two dots and the extension given
by the codec-id map. -/
theorem claim_C6_amended (input : String) (track : MKVTrack) :
    buildSubtitlesFileName input track = cliNameScheme input track := by
  simp only [buildSubtitlesFileName, cliNameScheme]
  refine congrArg (pathJoin (pathDir input)) ?_
  apply strExt
  by_cases hn : track.properties.trackName = "" <;>
    by_cases hf : track.properties.forced = true <;>
      simp [hn, hf, strData_append, dataDot, dataForcedLit, dataDotDotForcedLit,
        dataEmptyLit, List.append_assoc]

/-- Claim C9: `isMKVFile` is partial — it panics exactly on names shorter
than four characters and is well-defined (returns a Boolean) on all
longer names. -/
theorem claim_C9_isMKVFile_partial (s : String) :
    (isMKVFile s = none ↔ s.length < 4) ∧
    (4 ≤ s.length ↔ (isMKVFile s).isSome = true) := by
  unfold isMKVFile
  split <;> rename_i h <;> simp_all

/-- Claim C3: a container type that is not `"matroska"` after trimming
and lower-casing makes the CLI handler fail before any extraction is
attempted, and the process exit code is non-zero. -/
theorem claim_C3_container_gate (info : MKVInfo) (extractRes : Nat → Option String)
    (h : goToLower (goTrimSpace info.container.type) ≠ "matroska") :
    cliHandle info extractRes = ([], some "file is not a Matroska container") ∧
    cliExitCode (cliHandle info extractRes).2 ≠ 0 := by
  have h1 : cliHandle info extractRes = ([], some "file is not a Matroska container") := by
    unfold cliHandle
    rw [if_neg h]
  refine ⟨h1, ?_⟩
  rw [h1]
  decide

/-- Claim C3, witnessed on a `"webm"` container. -/
theorem claim_C3_witness :
    goToLower (goTrimSpace "webm") ≠ "matroska" ∧
    cliHandle ⟨[], ⟨"webm"⟩⟩ (fun _ => none)
        = ([], some "file is not a Matroska container") ∧
    cliExitCode (cliHandle ⟨[], ⟨"webm"⟩⟩ (fun _ => none)).2 ≠ 0 :=
  ⟨by decide,
    (claim_C3_container_gate ⟨[], ⟨"webm"⟩⟩ (fun _ => none) (by decide)).1,
    (claim_C3_container_gate ⟨[], ⟨"webm"⟩⟩ (fun _ => none) (by decide)).2⟩

/-- Claim C2 counterexample: in the CLI batch, a failure on the first
subtitle track aborts the handler — the second subtitle track is never
extracted, contradicting the claim that no per-track error causes the
remaining tracks to be skipped. -/
theorem claim_C2_counterexample :
    cliHandle cliBatchInfo failFirstTrack = ([1], some "exit status 2") ∧
    2 ∉ (cliHandle cliBatchInfo failFirstTrack).1 := by
  constructor
  · decide
  · decide

/-- Claim C2 (amended): in the GUI batch loop, a per-track failure that
reaches the track's terminal update is recorded on that track only and
the loop continues with the next track — even after arbitrarily many
such failures; but the two early `return` paths inside the PGS
conversion branch (missing conversion script, temporary-file creation
failure) abort the whole batch: the aborting track gets no terminal
state and every remaining track is skipped; and the CLI single-file
runner aborts at the first failed extraction (see the
counterexample). -/
theorem claim_C2_amended :
    (∀ (res : TrackItem → TrackOutcome) (pre post : List TrackItem)
        (t : TrackItem) (err : Option String),
        (∀ u ∈ pre, res u ≠ TrackOutcome.aborted) →
        res t = TrackOutcome.finished err →
        guiBatchStates res (pre ++ t :: post)
          = guiBatchStates res pre
            ++ (t.num, guiTerminalState err) :: guiBatchStates res post) ∧
    (∀ (res : TrackItem → TrackOutcome) (t : TrackItem) (rest : List TrackItem),
        res t = TrackOutcome.aborted →
        guiBatchStates res (t :: rest) = []) := by
  constructor
  · intro res pre post t err
    induction pre with
    | nil =>
        intro _ ht
        simp [guiBatchStates, ht]
    | cons u us ih =>
        intro hpre ht
        cases hres : res u with
        | aborted => exact absurd hres (hpre u (by simp))
        | finished e =>
            simp only [List.cons_append, guiBatchStates, hres, List.append_eq]
            rw [ih (fun v hv => hpre v (by simp [hv])) ht]
  · intro res t rest ht
    simp [guiBatchStates, ht]

/-- Claim C8 counterexample: a single-track batch whose track fails
reaches the terminal state `"Error"` but produces no progress update at
all — the aggregate counter is not updated after a `Failed` terminal
transition. -/
theorem claim_C8_counterexample :
    guiTerminalState (some "exit status 2") = "Error" ∧
    progressEvents [TrackOutcome.finished (some "exit status 2")] 0 = [] := by
  constructor
  · rfl
  · rfl

/-- Claim C8 (amended): the batch loop processes the selected tracks
strictly in user-selected order; when no track takes an early-`return`
path, every selected track is processed to a terminal state and the
progress counter is updated exactly once per track that reaches `Done`
— `Failed` tracks produce no update; an early `return` (missing PGS
script, temporary-file creation failure) ends the loop at once, with no
terminal update and no counter advance for the aborting track or any
later one. -/
theorem claim_C8_amended :
    (∀ (res : TrackItem → TrackOutcome) (selected : List TrackItem),
        (∀ u ∈ selected, res u ≠ TrackOutcome.aborted) →
        (guiBatchStates res selected).map Prod.fst = selected.map TrackItem.num) ∧
    (∀ (res : List TrackOutcome) (d : Nat),
        TrackOutcome.aborted ∉ res →
        (progressEvents res d).length
          = (res.filter
              (fun r => match r with
                | TrackOutcome.finished none => true
                | _ => false)).length) ∧
    (∀ (rest : List TrackOutcome) (d : Nat),
        progressEvents (TrackOutcome.aborted :: rest) d = []) := by
  refine ⟨?_, ?_, ?_⟩
  · intro res selected
    induction selected with
    | nil => intro _; rfl
    | cons u us ih =>
        intro h
        cases hres : res u with
        | aborted => exact absurd hres (h u (by simp))
        | finished e =>
            simp only [guiBatchStates, hres, List.map_cons]
            rw [ih (fun v hv => h v (by simp [hv]))]
  · intro res
    induction res with
    | nil => intro d _; rfl
    | cons r rest ih =>
        intro d hmem
        cases r with
        | aborted => exact absurd (List.mem_cons_self _ _) hmem
        | finished e =>
            have htail := ih (d + 1) (fun hm => hmem (List.mem_cons_of_mem _ hm))
            cases e <;> simp [progressEvents, htail, List.filter]
  · intro rest d
    rfl

/-- Claim C1 counterexample: on the pass-through path, a clean tool exit
with an absent destination artifact is still reported as `"Done"` —
success is claimed although the artifact does not exist. -/
theorem claim_C1_counterexample :
    emptySizeFS "/out/movie.track2_und.srt" = none ∧
    guiTerminalState
        (passThroughErr none emptySizeFS "/out/movie.track2_und.srt") = "Done" := by
  constructor
  · rfl
  · rfl

/-- Claim C1 (amended): the existence/non-emptiness post-condition holds
on the conversion-prefixed extraction paths (PGS, ASS/SSA, VobSub) —
their success implies the artifact exists with non-zero size — while
the plain pass-through path reports exactly the external tool's exit
verdict, without any artifact check. -/
theorem claim_C1_amended :
    (∀ (toolErr : Option String) (fs : SizeFS) (p : String),
        extractArtifactErr toolErr fs p = none →
        toolErr = none ∧ ∃ sz, fs p = some sz ∧ sz ≠ 0) ∧
    (∀ (toolErr : Option String) (fs : SizeFS) (p : String),
        passThroughErr toolErr fs p = toolErr) := by
  constructor
  · intro toolErr fs p h
    unfold extractArtifactErr at h
    split at h
    · cases h
    · rename_i sz heq
      split at h
      · cases h
      · rename_i hz
        exact ⟨h, sz, heq, hz⟩
  · intro _ _ _
    rfl

/-- Claim C1 (amended), witnessed: a clean tool exit with a 5210-byte
artifact passes the conversion-path check. -/
theorem claim_C1_witness :
    extractArtifactErr none oneFileFS "/out/movie.track2_eng.sup" = none ∧
    (none = (none : Option String) ∧
      ∃ sz, oneFileFS "/out/movie.track2_eng.sup" = some sz ∧ sz ≠ 0) ∧
    passThroughErr (some "exit status 2") oneFileFS "/x" = some "exit status 2" :=
  ⟨rfl,
    claim_C1_amended.1 none oneFileFS "/out/movie.track2_eng.sup" rfl,
    claim_C1_amended.2 (some "exit status 2") oneFileFS "/x"⟩

/-- Claim C4 counterexample: classification is not invariant under case
changes of the codec identifier — `"VOBSUB"` is the upper-casing of the
recognized `"vobsub"`, yet the two classify differently whether or not
conversion is opted in. -/
theorem claim_C4_counterexample :
    goToLower "VOBSUB" = goToLower "vobsub" ∧
    classify "VOBSUB" false ≠ classify "vobsub" false ∧
    classify "VOBSUB" true ≠ classify "vobsub" true ∧
    classify "VOBSUB" false = (Strategy.passThrough, "vobsub") ∧
    classify "vobsub" false = (Strategy.passThrough, "idx") := by
  refine ⟨rfl, by decide, by decide, rfl, rfl⟩

/-- Any codec matching the SubRip/SRT substring tests is classified
pass-through with extension `srt` whenever conversion is not opted in
(with conversion not in effect, no conversion guard can fire and the
first extension test wins). -/
theorem subrip_passthrough (codec : String)
    (h : (goContains codec "SubRip" || goContains codec "subrip" ||
          goContains codec "SRT" || goContains codec "srt") = true) :
    classify codec false = (Strategy.passThrough, "srt") := by
  unfold classify passThroughExt
  simp [h]

/-- Any codec recognized by none of the substring or exact identifier
tests is classified pass-through with its lower-cased, slash-sanitized
name, whatever the conversion checkbox state. -/
theorem unrecognized_passthrough (codec : String) (b : Bool)
    (h1 : (goContains codec "SubRip" || goContains codec "subrip" ||
           goContains codec "SRT" || goContains codec "srt") = false)
    (h2 : (codec == "hdmv_pgs_subtitle" || codec == "HDMV PGS") = false)
    (h3 : (codec == "ass" || codec == "ssa" || codec == "ASS" || codec == "SSA") = false)
    (h4 : (codec == "vobsub" || codec == "VobSub") = false)
    (h5 : (goContains (goToLower codec) "ass" || goContains (goToLower codec) "ssa" ||
           goContains (goToLower codec) "substation" ||
           goContains (goToLower codec) "sub station") = false) :
    classify codec b = (Strategy.passThrough, goToLower (replaceSlashes codec)) := by
  unfold classify passThroughExt
  simp [h1, h2, h3, h4, h5]

/-- Claim C4 (amended): the decision table holds at the codec identifiers
the code recognizes — every codec matching the SubRip/SRT substring
tests is pass-through with `srt` when conversion is not opted in; the
exact identifiers `ass`/`ssa`/`ASS`/`SSA` give `srt` (markup-to-text)
when conversion is opted in, else pass-through `ass`; the exact PGS
pair gives `srt` (OCR) when opted in, else `sup`; the exact VobSub pair
gives `srt` (OCR) when opted in, else `idx`; every codec matching none
of the tests is pass-through with its lower-cased, slash-sanitized
name — and the specific alias pair `"HDMV PGS"` /
`"hdmv_pgs_subtitle"` classifies identically; general case-invariance
fails (see the counterexample). -/
theorem claim_C4_amended :
    (∀ codec : String,
        (goContains codec "SubRip" || goContains codec "subrip" ||
            goContains codec "SRT" || goContains codec "srt") = true →
        classify codec false = (Strategy.passThrough, "srt")) ∧
    (classify "ass" false = (Strategy.passThrough, "ass") ∧
      classify "ass" true = (Strategy.markupToText, "srt") ∧
      classify "ssa" false = (Strategy.passThrough, "ass") ∧
      classify "ssa" true = (Strategy.markupToText, "srt") ∧
      classify "ASS" false = (Strategy.passThrough, "ass") ∧
      classify "ASS" true = (Strategy.markupToText, "srt") ∧
      classify "SSA" false = (Strategy.passThrough, "ass") ∧
      classify "SSA" true = (Strategy.markupToText, "srt")) ∧
    (∀ b, classify "hdmv_pgs_subtitle" b = classify "HDMV PGS" b) ∧
    (classify "hdmv_pgs_subtitle" true = (Strategy.ocrImageToText, "srt") ∧
      classify "hdmv_pgs_subtitle" false = (Strategy.passThrough, "sup")) ∧
    (classify "vobsub" true = (Strategy.ocrImageToText, "srt") ∧
      classify "vobsub" false = (Strategy.passThrough, "idx") ∧
      classify "VobSub" true = (Strategy.ocrImageToText, "srt") ∧
      classify "VobSub" false = (Strategy.passThrough, "idx")) ∧
    (∀ (codec : String) (b : Bool),
        (goContains codec "SubRip" || goContains codec "subrip" ||
            goContains codec "SRT" || goContains codec "srt") = false →
        (codec == "hdmv_pgs_subtitle" || codec == "HDMV PGS") = false →
        (codec == "ass" || codec == "ssa" || codec == "ASS" || codec == "SSA") = false →
        (codec == "vobsub" || codec == "VobSub") = false →
        (goContains (goToLower codec) "ass" || goContains (goToLower codec) "ssa" ||
            goContains (goToLower codec) "substation" ||
            goContains (goToLower codec) "sub station") = false →
        classify codec b = (Strategy.passThrough, goToLower (replaceSlashes codec))) := by
  refine ⟨subrip_passthrough, by decide, ?_, by decide, by decide,
    unrecognized_passthrough⟩
  intro b
  cases b <;> decide

/-- Claim C7: when the converter exits non-zero but its temporary file
holds (partial) output, the temporary file is still promoted to the
final output path, the temporary file is cleaned up, the task's final
error is the converter's exit error, and the task terminates
`"Error"` (Failed) with the partial file left in place. -/
theorem claim_C7_partial_promotion (e content : String) (fs : ContentFS)
    (tmp finalPath : String) (htmp : fs tmp = some content)
    (hne : finalPath ≠ tmp) :
    (pgsConvertFinalize (some e) fs tmp finalPath).1 finalPath = some content ∧
    (pgsConvertFinalize (some e) fs tmp finalPath).1 tmp = none ∧
    (pgsConvertFinalize (some e) fs tmp finalPath).2 = some e ∧
    guiTerminalState (pgsConvertFinalize (some e) fs tmp finalPath).2 = "Error" := by
  have hfin :
      (promoteTempFile (some e) fs tmp finalPath).1 finalPath = some content := by
    unfold promoteTempFile
    rw [htmp]
    simp [fsRemove, fsWrite, hne]
  have hr : pgsConvertFinalize (some e) fs tmp finalPath
      = promoteTempFile (some e) fs tmp finalPath := by
    simp only [pgsConvertFinalize, hfin]
  rw [hr]
  refine ⟨hfin, ?_, ?_, ?_⟩
  · unfold promoteTempFile
    rw [htmp]
    simp [fsRemove]
  · unfold promoteTempFile
    rw [htmp]
  · unfold promoteTempFile
    rw [htmp]
    rfl

/-- Claim C7, witnessed at a concrete non-zero converter exit with a
partial temporary transcript. -/
theorem claim_C7_witness :
    tmpOnlyFS "/out/.tmp_convert_123.srt"
        = some "1\n00:00:01,000 --> 00:00:02,000\npartial\n" ∧
    ("/out/movie.track2_eng.srt" : String) ≠ "/out/.tmp_convert_123.srt" ∧
    (pgsConvertFinalize (some "exit status 1") tmpOnlyFS "/out/.tmp_convert_123.srt"
        "/out/movie.track2_eng.srt").1 "/out/movie.track2_eng.srt"
      = some "1\n00:00:01,000 --> 00:00:02,000\npartial\n" ∧
    (pgsConvertFinalize (some "exit status 1") tmpOnlyFS "/out/.tmp_convert_123.srt"
        "/out/movie.track2_eng.srt").2 = some "exit status 1" :=
  ⟨rfl, by decide,
    (claim_C7_partial_promotion "exit status 1" _ tmpOnlyFS
      "/out/.tmp_convert_123.srt" "/out/movie.track2_eng.srt" rfl (by decide)).1,
    (claim_C7_partial_promotion "exit status 1" _ tmpOnlyFS
      "/out/.tmp_convert_123.srt" "/out/movie.track2_eng.srt" rfl (by decide)).2.2.1⟩

theorem clamp_nonneg (x : Int) : 0 ≤ if x < 0 then 0 else x := by
  split <;> omega

/-- Claim C10: lines without the timing pattern pass through unchanged;
every adjusted component is non-negative and within its field range for
any stamp and any (possibly negative) offset; and when a shifted time
would become negative it is clamped to `00:00:00,000`. -/
theorem claim_C10_timing :
    (∀ (off : Int) (line : String),
        lineHasStamp line.data = false → adjustLine off line = line) ∧
    (∀ (t : SRTStamp) (off : Int),
        0 ≤ (adjustStamp t off).sh ∧
        0 ≤ (adjustStamp t off).sm ∧ (adjustStamp t off).sm < 60 ∧
        0 ≤ (adjustStamp t off).ss ∧ (adjustStamp t off).ss < 60 ∧
        0 ≤ (adjustStamp t off).sms ∧ (adjustStamp t off).sms < 1000 ∧
        0 ≤ (adjustStamp t off).eh ∧
        0 ≤ (adjustStamp t off).em ∧ (adjustStamp t off).em < 60 ∧
        0 ≤ (adjustStamp t off).es ∧ (adjustStamp t off).es < 60 ∧
        0 ≤ (adjustStamp t off).ems ∧ (adjustStamp t off).ems < 1000) ∧
    (∀ (t : SRTStamp) (off : Int),
        (t.sh : Int) * 3600000 + t.sm * 60000 + t.ss * 1000 + t.sms + off < 0 →
          (adjustStamp t off).sh = 0 ∧ (adjustStamp t off).sm = 0 ∧
          (adjustStamp t off).ss = 0 ∧ (adjustStamp t off).sms = 0) ∧
    (∀ (t : SRTStamp) (off : Int),
        (t.eh : Int) * 3600000 + t.em * 60000 + t.es * 1000 + t.ems + off < 0 →
          (adjustStamp t off).eh = 0 ∧ (adjustStamp t off).em = 0 ∧
          (adjustStamp t off).es = 0 ∧ (adjustStamp t off).ems = 0) := by
  refine ⟨?_, ?_, ?_, ?_⟩
  · intro off line h
    unfold adjustLine
    rw [h]
    simp
  · intro t off
    simp only [adjustStamp]
    refine ⟨?_, ?_, ?_, ?_, ?_, ?_, ?_, ?_, ?_, ?_, ?_, ?_, ?_, ?_⟩ <;> split <;> omega
  · intro t off h
    simp only [adjustStamp]
    refine ⟨?_, ?_, ?_, ?_⟩ <;> rw [if_pos h] <;> omega
  · intro t off h
    simp only [adjustStamp]
    refine ⟨?_, ?_, ?_, ?_⟩ <;> rw [if_pos h] <;> omega

/-- Claim C10, witnessed: a pattern-free line passes through unchanged
under a negative offset, and a −5 s shift of the one-second stamp is
clamped to zero on both sides. -/
theorem claim_C10_witness :
    lineHasStamp ("subtitle text line" : String).data = false ∧
    adjustLine (-5000) "subtitle text line" = "subtitle text line" ∧
    ((sampleStamp.sh : Int) * 3600000 + sampleStamp.sm * 60000 + sampleStamp.ss * 1000
        + sampleStamp.sms + (-5000) < 0) ∧
    (adjustStamp sampleStamp (-5000)).sh = 0 ∧ (adjustStamp sampleStamp (-5000)).sm = 0 ∧
    (adjustStamp sampleStamp (-5000)).ss = 0 ∧ (adjustStamp sampleStamp (-5000)).sms = 0 ∧
    (adjustStamp sampleStamp (-5000)).ems = 0 ∧
    0 ≤ (adjustStamp sampleStamp (-5000)).sh :=
  ⟨by decide,
    claim_C10_timing.1 (-5000) "subtitle text line" (by decide),
    by decide,
    (claim_C10_timing.2.2.1 sampleStamp (-5000) (by decide)).1,
    (claim_C10_timing.2.2.1 sampleStamp (-5000) (by decide)).2.1,
    (claim_C10_timing.2.2.1 sampleStamp (-5000) (by decide)).2.2.1,
    (claim_C10_timing.2.2.1 sampleStamp (-5000) (by decide)).2.2.2,
    (claim_C10_timing.2.2.2 sampleStamp (-5000) (by decide)).2.2.2,
    (claim_C10_timing.2.1 sampleStamp (-5000)).1⟩

/-- Claim C2 (amended), witnessed: after a failed-but-finished track the
batch still processes the next track with its own terminal state, and
an aborting track produces no state and empties the rest of the
batch. -/
theorem claim_C2_witness :
    (∀ u ∈ [guiRowA], guiOutcome u ≠ TrackOutcome.aborted) ∧
    guiOutcome guiRowA = TrackOutcome.finished (some "exit status 2") ∧
    guiOutcome guiRowB = TrackOutcome.finished none ∧
    guiBatchStates guiOutcome ([guiRowA] ++ guiRowB :: [])
      = guiBatchStates guiOutcome [guiRowA]
        ++ (guiRowB.num, guiTerminalState none) :: guiBatchStates guiOutcome [] ∧
    guiOutcome guiRowC = TrackOutcome.aborted ∧
    guiBatchStates guiOutcome (guiRowC :: [guiRowB]) = [] :=
  ⟨by decide, by decide, by decide,
    claim_C2_amended.1 guiOutcome [guiRowA] [] guiRowB none (by decide) (by decide),
    by decide,
    claim_C2_amended.2 guiOutcome guiRowC [guiRowB] (by decide)⟩

/-- Claim C8 (amended), witnessed at a concrete abort-free batch: one
failure and one success produce exactly one progress update, and the
states cover the batch in order. -/
theorem claim_C8_witness :
    (∀ u ∈ [guiRowA, guiRowB], guiOutcome u ≠ TrackOutcome.aborted) ∧
    (guiBatchStates guiOutcome [guiRowA, guiRowB]).map Prod.fst
      = [guiRowA, guiRowB].map TrackItem.num ∧
    TrackOutcome.aborted
        ∉ [TrackOutcome.finished (some "exit status 2"), TrackOutcome.finished none] ∧
    (progressEvents
        [TrackOutcome.finished (some "exit status 2"), TrackOutcome.finished none]
        0).length
      = ([TrackOutcome.finished (some "exit status 2"),
          TrackOutcome.finished none].filter
            (fun r => match r with
              | TrackOutcome.finished none => true
              | _ => false)).length :=
  ⟨by decide,
    claim_C8_amended.1 guiOutcome [guiRowA, guiRowB] (by decide),
    by decide,
    claim_C8_amended.2.1
      [TrackOutcome.finished (some "exit status 2"), TrackOutcome.finished none] 0
      (by decide)⟩

/-- Claim C4 (amended), witnessed: the universal SubRip clause at the
real mkvmerge name `"SubRip/SRT"` and the universal unrecognized clause
at `"S_KATE"`. -/
theorem claim_C4_witness :
    (goContains "SubRip/SRT" "SubRip" || goContains "SubRip/SRT" "subrip" ||
        goContains "SubRip/SRT" "SRT" || goContains "SubRip/SRT" "srt") = true ∧
    classify "SubRip/SRT" false = (Strategy.passThrough, "srt") ∧
    (goContains "S_KATE" "SubRip" || goContains "S_KATE" "subrip" ||
        goContains "S_KATE" "SRT" || goContains "S_KATE" "srt") = false ∧
    classify "S_KATE" true = (Strategy.passThrough, "s_kate") :=
  ⟨by decide,
    claim_C4_amended.1 "SubRip/SRT" (by decide),
    by decide,
    claim_C4_amended.2.2.2.2.2 "S_KATE" true (by decide) (by decide) (by decide)
      (by decide) (by decide)⟩
